import Mathlib

/-!
Verification of the core behaviours of the ockam repository against its
natural-language specification.  The development shallowly embeds:

* the transport-route resolver (`ockam_node/src/context/transports.rs`),
* the SQL-backed ABAC policy repository
  (`ockam_abac/src/storage/policy_repository_sql.rs`),
* the users repository (`ockam_api/src/cli_state/storage/users_repository_sql.rs`),
* credential presentation (`ockam_api/src/nodes/service/credentials.rs`),
* the TCP-inlet creation retry loop and its target-address parser
  (`ockam_command/src/tcp/inlet/create.rs`).

Stateful SQL tables are embedded as lists of rows; async fallible calls
become `Except`-valued functions; machine integers are `Nat`.
-/

namespace Ockam

/-! ## Route resolver (`ockam_node/src/context/transports.rs`) -/

/-- An address in a route: a transport type tag plus an opaque address string,
mirroring `ockam_core::Address` (`transport_type`, `address`). -/
structure Address where
  transportType : Nat
  address : String
deriving DecidableEq, Repr

/-- The transport type tag of process-local addresses (`ockam_core::LOCAL`). -/
def LOCAL : Nat := 0

/-- A route is an ordered sequence of addresses (`ockam_core::Route`). -/
abbrev Route := List Address

/-- Route.is_local: a route is local iff every address carries the `LOCAL`
transport type. -/
def is_local (r : Route) : Bool :=
  r.all fun a => a.transportType == LOCAL

/-- A registered transport adapter, identified by its transport type.
Modelled from the spec: the `Transport` trait lives in `ockam_transport_core`
which is not part of the sampled sources; per the spec a transport is "a named
adapter capable of recognizing and resolving its own segment type within a
Route". -/
structure Transport where
  transport_type : Nat
deriving DecidableEq, Repr

/-- Transport.resolve_route.  Modelled from the spec and the in-repo test
transport (`SomeTransport` in `transports.rs`): every address whose transport
type matches this adapter is replaced by a local worker address carrying the
same address payload; all other addresses are left unchanged. -/
def Transport.resolve_route (t : Transport) (route : Route) : Route :=
  route.map fun a =>
    if a.transportType == t.transport_type then ⟨LOCAL, a.address⟩ else a

/-- Error kinds used by the embedded code (`ockam_core::errcode::Kind`). -/
inductive ErrKind where
  | notFound
  | invalid
  | internal
deriving DecidableEq, Repr

/-- An `ockam_core::Error`: origin, kind and human-readable message. -/
structure CoreError where
  origin : String
  kind : ErrKind
  message : String
deriving DecidableEq, Repr

/-- The error built at the end of `resolve_transport_route`.  The source
writes `format!("the route {:?} could not be fully resolved to local
addresses", {})`: the format argument is the empty block `{}`, i.e. the unit
value, whose Debug rendering is `()` — so the message is this constant string
whatever the route was. -/
def routeNotFoundError : CoreError :=
  { origin := "Transport"
    kind := ErrKind.notFound
    message := "the route () could not be fully resolved to local addresses" }

/-- The transport registry in registration order.  Modelled from the spec:
the `Context.transports` field type is not in the sampled sources; the spec
fixes iteration to registration order ("Each registered transport is asked, in
registration order, ...") with insert-or-replace registration per type. -/
abbrev TransportRegistry := List Transport

/-- Context.register_transport: insert-or-replace the adapter for the
transport's declared type. -/
def register_transport (reg : TransportRegistry) (t : Transport) : TransportRegistry :=
  if reg.any fun t0 => t0.transport_type == t.transport_type then
    reg.map fun t0 => if t0.transport_type == t.transport_type then t else t0
  else
    reg ++ [t]

/-- Context.is_transport_registered. -/
def is_transport_registered (reg : TransportRegistry) (ty : Nat) : Bool :=
  reg.any fun t0 => t0.transport_type == ty

/-- Context.resolve_transport_route: starting from the given route, each
registered transport in turn resolves its own addresses; as soon as the
current route is fully local it is returned; if the registry is exhausted
first, the NotFound error is returned.  This mirrors the source loop
`for transport in transports { resolved = transport.resolve_route(resolved)?;
if resolved.is_local() { return Ok(resolved) } }` followed by `Err(...)`. -/
def resolve_transport_route : TransportRegistry → Route → Except CoreError Route
  | [], _ => .error routeNotFoundError
  | t :: ts, route =>
    let resolved := t.resolve_route route
    if is_local resolved then .ok resolved
    else resolve_transport_route ts resolved

/-! ## ABAC expressions and their binary codec

The `Expr` type and its binary (CBOR) codec live in `ockam_abac/src/expr.rs`,
which is not among the sampled sources.  Modelled from the spec: "a boolean
expression tree over named attributes and literals (conjunction, disjunction,
negation, equality/comparison nodes, identifier leaves, literal leaves).
Must encode/decode losslessly to a compact binary form for storage". -/

/-- Modelled from the spec: the ABAC boolean expression tree. -/
inductive Expr where
  | ident (name : String)
  | str (s : String)
  | int (i : Int)
  | bool (b : Bool)
  | eq (l r : Expr)
  | lt (l r : Expr)
  | gt (l r : Expr)
  | and (l r : Expr)
  | or (l r : Expr)
  | not (e : Expr)
deriving DecidableEq, Repr

/-- Encode a string as a length-prefixed sequence of character codes. -/
def encodeString (s : String) : List Nat :=
  s.toList.length :: s.toList.map Char.toNat

/-- Encode an integer as sign tag plus magnitude. -/
def encodeInt : Int → List Nat
  | .ofNat n => [0, n]
  | .negSucc n => [1, n]

/-- Modelled from the spec: the compact binary encoding of an expression
(the minicbor instances of the real crate), as a tagged word stream. -/
def encodeExpr : Expr → List Nat
  | .ident n => 0 :: encodeString n
  | .str s => 1 :: encodeString s
  | .int i => 2 :: encodeInt i
  | .bool b => [3, b.toNat]
  | .eq l r => 4 :: (encodeExpr l ++ encodeExpr r)
  | .lt l r => 5 :: (encodeExpr l ++ encodeExpr r)
  | .gt l r => 6 :: (encodeExpr l ++ encodeExpr r)
  | .and l r => 7 :: (encodeExpr l ++ encodeExpr r)
  | .or l r => 8 :: (encodeExpr l ++ encodeExpr r)
  | .not e => 9 :: encodeExpr e

/-- Decode a fixed number of characters from the word stream. -/
def decodeCharsFuel : Nat → List Nat → Option (List Char × List Nat)
  | 0, l => some ([], l)
  | _ + 1, [] => none
  | n + 1, c :: rest =>
    match decodeCharsFuel n rest with
    | none => none
    | some (cs, r) => some (Char.ofNat c :: cs, r)

/-- Decode a length-prefixed string from the word stream. -/
def decodeString : List Nat → Option (String × List Nat)
  | [] => none
  | n :: rest =>
    match decodeCharsFuel n rest with
    | none => none
    | some (cs, r) => some (String.mk cs, r)

/-- Decode a sign-tagged integer from the word stream. -/
def decodeInt : List Nat → Option (Int × List Nat)
  | 0 :: n :: r => some (Int.ofNat n, r)
  | 1 :: n :: r => some (Int.negSucc n, r)
  | _ => none

/-- Decode two subexpressions and combine them with a binary node. -/
def decodeBinNode (rec : List Nat → Option (Expr × List Nat))
    (mk : Expr → Expr → Expr) (l : List Nat) : Option (Expr × List Nat) :=
  match rec l with
  | some (a, r1) =>
    match rec r1 with
    | some (b, r2) => some (mk a b, r2)
    | none => none
  | none => none

/-- One layer of the expression decoder: dispatch on the tag, decoding
subexpressions through `rec`. -/
def decodeExprStep (rec : List Nat → Option (Expr × List Nat)) :
    List Nat → Option (Expr × List Nat)
  | [] => none
  | tag :: rest =>
    if tag == 0 then (decodeString rest).map fun p => (.ident p.1, p.2)
    else if tag == 1 then (decodeString rest).map fun p => (.str p.1, p.2)
    else if tag == 2 then (decodeInt rest).map fun p => (.int p.1, p.2)
    else if tag == 3 then
      match rest with
      | 0 :: r => some (.bool false, r)
      | 1 :: r => some (.bool true, r)
      | _ => none
    else if tag == 4 then decodeBinNode rec .eq rest
    else if tag == 5 then decodeBinNode rec .lt rest
    else if tag == 6 then decodeBinNode rec .gt rest
    else if tag == 7 then decodeBinNode rec .and rest
    else if tag == 8 then decodeBinNode rec .or rest
    else if tag == 9 then (rec rest).map fun p => (.not p.1, p.2)
    else none

/-- Fuel-indexed expression decoder; the fuel dominates the tree depth. -/
def decodeExprFuel : Nat → List Nat → Option (Expr × List Nat)
  | 0, _ => none
  | fuel + 1, l => decodeExprStep (decodeExprFuel fuel) l

/-- Depth of an expression tree, used to size the decoder fuel. -/
def exprDepth : Expr → Nat
  | .ident _ => 1
  | .str _ => 1
  | .int _ => 1
  | .bool _ => 1
  | .eq l r => max (exprDepth l) (exprDepth r) + 1
  | .lt l r => max (exprDepth l) (exprDepth r) + 1
  | .gt l r => max (exprDepth l) (exprDepth r) + 1
  | .and l r => max (exprDepth l) (exprDepth r) + 1
  | .or l r => max (exprDepth l) (exprDepth r) + 1
  | .not e => exprDepth e + 1

/-- Decode a complete expression from a stored blob; any leftover bytes or
decode failure yield `none` (a malformed blob). -/
def decodeExpr (l : List Nat) : Option Expr :=
  match decodeExprFuel (l.length + 1) l with
  | some (e, []) => some e
  | _ => none

/-! ## Policy repository (`ockam_abac/src/storage/policy_repository_sql.rs`)

The sqlite `policy` table (columns `resource`, `action`, `expression`, primary
key `(resource, action)`) is embedded as a list of rows; the queries of the
source become list operations with the same observable behaviour. -/

/-- A row of the `policy` table (struct `PolicyRow`): textual resource and
action plus the binary-encoded expression. -/
structure PolicyRow where
  resource : String
  action : String
  expression : List Nat
deriving DecidableEq, Repr

/-- The policy table state. -/
abbrev PolicyDb := List PolicyRow

/-- The `WHERE resource=$1 and action=$2` predicate. -/
def rowMatches (r a : String) (row : PolicyRow) : Bool :=
  row.resource == r && row.action == a

/-- Errors surfaced by the repository.  The corruption case is modelled from
the spec: the conversion of a minicbor decode failure into an `ockam` error is
outside the sampled sources, and the spec classes it as a distinct Corruption
error. -/
inductive PolicyError where
  | corruption
deriving DecidableEq, Repr

/-- PolicySqlxDatabase::get_policy: `fetch_optional` of the keyed SELECT, then
`row.map(|r| r.expression()).transpose()?` — no row is `Ok(None)`, a row whose
blob fails to decode is an error, otherwise the decoded expression. -/
def get_policy (db : PolicyDb) (r a : String) : Except PolicyError (Option Expr) :=
  match db.find? (rowMatches r a) with
  | none => .ok none
  | some row =>
    match decodeExpr row.expression with
    | some e => .ok (some e)
    | none => .error .corruption

/-- PolicySqlxDatabase::set_policy: `INSERT OR REPLACE` keyed by
`(resource, action)`, storing the binary encoding of the expression. -/
def set_policy (db : PolicyDb) (r a : String) (e : Expr) : PolicyDb :=
  (db.filter fun row => !(rowMatches r a row)) ++ [⟨r, a, encodeExpr e⟩]

/-- PolicySqlxDatabase::delete_policy: `DELETE FROM policy WHERE resource = ?
and action = ?`; always succeeds, whether or not the key was present. -/
def delete_policy (db : PolicyDb) (r a : String) : PolicyDb :=
  db.filter fun row => !(rowMatches r a row)

/-- Decode each fetched row into an `(action, expression)` pair, failing on
the first row whose blob does not decode — the `collect::<Result<Vec<_>>>` of
the source. -/
def rowsToPolicies : List PolicyRow → Except PolicyError (List (String × Expr))
  | [] => .ok []
  | row :: rest =>
    match decodeExpr row.expression with
    | none => .error .corruption
    | some e =>
      match rowsToPolicies rest with
      | .error err => .error err
      | .ok ps => .ok ((row.action, e) :: ps)

/-- PolicySqlxDatabase::get_policies_by_resource: fetch every row of the
resource and decode each one. -/
def get_policies_by_resource (db : PolicyDb) (r : String) :
    Except PolicyError (List (String × Expr)) :=
  rowsToPolicies (db.filter fun row => row.resource == r)

/-- A table state is well formed when every stored blob decodes; every state
reachable through `set_policy`/`delete_policy` from the empty table is. -/
def wf_db (db : PolicyDb) : Prop :=
  ∀ row ∈ db, (decodeExpr row.expression).isSome = true

/-- Membership of an `(action, expression)` pair in a successful
`get_policies_by_resource` answer. -/
def policy_mem (db : PolicyDb) (r a : String) (e : Expr) : Prop :=
  ∃ ps, get_policies_by_resource db r = .ok ps ∧ (a, e) ∈ ps

/-! ## Users repository (`ockam_api/src/cli_state/storage/users_repository_sql.rs`) -/

/-- A row of the `user` table (struct `UserRow`). -/
structure UserRow where
  email : String
  sub : String
  nickname : String
  name : String
  picture : String
  updated_at : String
  email_verified : Bool
  is_default : Bool
deriving DecidableEq, Repr

/-- The user table state. -/
abbrev UserDb := List UserRow

/-- UsersSqlxDatabase::set_default_user: `UPDATE user SET is_default = true
WHERE email = ?` — every row with the given email has its flag set, every
other row is untouched; no other default flag is cleared. -/
def set_default_user (db : UserDb) (email : String) : UserDb :=
  db.map fun u => if u.email == email then { u with is_default := true } else u

/-- UsersSqlxDatabase::get_user: keyed point lookup by email. -/
def get_user (db : UserDb) (email : String) : Option UserRow :=
  db.find? fun u => u.email == email

/-- UsersSqlxDatabase::get_default_user: `fetch_optional` of
`SELECT email FROM user WHERE is_default=true`, then `get_user` on that
email. -/
def get_default_user (db : UserDb) : Option UserRow :=
  match db.find? fun u => u.is_default with
  | none => none
  | some u => get_user db u.email

/-! ## Credential presentation (`ockam_api/src/nodes/service/credentials.rs`) -/

/-- An opaque credential bundle (`CredentialAndPurposeKey`). -/
structure Credential where
  data : String
deriving DecidableEq, Repr

/-- The observable outcome of `NodeManagerWorker::present_credential`. -/
inductive PresentOutcome where
  | panicked (msg : String)
  | failed (msg : String)
  | presentedOneway (route : Route) (c : Credential)
  | presentedMutual (route : Route) (authorities : List String) (c : Credential)
deriving DecidableEq, Repr

/-- NodeManagerWorker::present_credential.  `routeConv` is the result of
`MultiAddr::from_str` + `local_multiaddr_to_route` on the request's route,
`credential_lookup` the result of `node_manager.get_credential` for the
node's own identifier, `trust_context` the result of
`node_manager.trust_context()?.authorities()` (those collaborator calls live
outside the sampled sources and are passed in as their results).  An absent
credential panics (`unwrap_or_else(|| panic ...)`); a lookup error is
propagated with `?`; the credential is then presented one-way, or mutually
against the trust-context authorities. -/
def present_credential (routeConv : Except String Route) (identifier : String)
    (credential_lookup : Except String (Option Credential))
    (trust_context : Except String (List String)) (oneway : Bool) :
    PresentOutcome :=
  match routeConv with
  | .error e => .failed e
  | .ok route =>
    match credential_lookup with
    | .error e => .failed e
    | .ok none => .panicked ("A credential must be retrieved for " ++ identifier)
    | .ok (some credential) =>
      if oneway then .presentedOneway route credential
      else
        match trust_context with
        | .error e => .failed e
        | .ok authorities => .presentedMutual route authorities credential

/-! ## Inlet creation retry loop (`ockam_command/src/tcp/inlet/create.rs`)

The `loop { ... node.create_inlet(...).await? ... }` block of `rpc` is
embedded as a recursion over the stream of replies returned by the successive
`create_inlet` attempts; durations are in milliseconds (`retry_wait.as_millis`). -/

/-- The `Status::BadRequest` code (`ockam_core::api::Status`). -/
def statusBadRequest : Nat := 400

/-- The successful payload of an inlet creation
(`ockam_api::nodes::models::portal::InletStatus`), reduced to the field the
command prints. -/
structure InletStatus where
  bind_addr : String
deriving DecidableEq, Repr

/-- A reply from the node (`ockam_core::api::Reply<InletStatus>`): either the
status, or an error with an optional message and an optional status code. -/
inductive Reply (A : Type) where
  | successful (a : A)
  | failed (msg : Option String) (status : Option Nat)
deriving DecidableEq, Repr

/-- The fatal ways out of the retry loop. -/
inductive InletError where
  | apiInvalid (message : String)
  | failedToCreate
  | streamEnded
deriving DecidableEq, Repr

/-- What one run of the loop did: how many `create_inlet` attempts it made,
which sleeps it performed between attempts, and how it ended. -/
structure LoopTrace where
  attempts : Nat
  sleeps : List Nat
  result : Except InletError InletStatus
deriving Repr

instance : DecidableEq (Except InletError InletStatus) := fun x y =>
  match x, y with
  | .ok a, .ok b => decidable_of_iff (a = b) (by simp)
  | .error a, .error b => decidable_of_iff (a = b) (by simp)
  | .ok _, .error _ => isFalse (by simp)
  | .error _, .ok _ => isFalse (by simp)

instance : DecidableEq LoopTrace := fun x y =>
  decidable_of_iff (x.attempts = y.attempts ∧ x.sleeps = y.sleeps ∧ x.result = y.result)
    (by cases x; cases y; simp [LoopTrace.mk.injEq])

/-- The retry loop of `rpc` in `tcp/inlet/create.rs` (lines 166-210), applied
to the stream of replies of the successive attempts.  A successful reply
breaks out with the status; a failed reply whose status is `BadRequest` raises
a fatal `Error::new(Origin::Api, Kind::Invalid, ...)`; otherwise a zero
`retry_wait` raises the fatal miette error, and a nonzero one sleeps
`retry_wait` and attempts again.  `streamEnded` is a model artifact for an
exhausted reply stream (the real loop would attempt again). -/
def inlet_retry_loop (retry_wait : Nat) : List (Reply InletStatus) → LoopTrace
  | [] => ⟨0, [], .error .streamEnded⟩
  | .successful s :: _ => ⟨1, [], .ok s⟩
  | .failed e s :: rest =>
    if s == some statusBadRequest then
      ⟨1, [], .error (.apiInvalid (e.getD "bad request when creating an inlet"))⟩
    else if retry_wait == 0 then
      ⟨1, [], .error .failedToCreate⟩
    else
      let t := inlet_retry_loop retry_wait rest
      ⟨t.attempts + 1, retry_wait :: t.sleeps, t.result⟩

/-! ## Target-address parsing (`CreateCommand::parse_arg_to`)

`MultiAddr::from_str`, `MultiAddr::to_string` and `process_nodes_multiaddr`
live outside the sampled sources and are modelled from the spec: "Textual
route/target addressing grammar accepts either a fully qualified multi-hop
address or a bare relay name"; an address is a `/`-separated sequence of
protocol-tagged segments, each protocol followed by its value. -/

/-- Check whether a pattern is an initial segment of a character list. -/
def listStartsWith : List Char → List Char → Bool
  | _, [] => true
  | [], _ :: _ => false
  | c :: cs, p :: ps => c == p && listStartsWith cs ps

/-- Replace every non-overlapping occurrence of a pattern, left to right (the
semantics of Rust `str::replace`); the fuel is the length of the scanned
list. -/
def replaceAllFuel (pat rep : List Char) : Nat → List Char → List Char
  | _, [] => []
  | 0, s => s
  | fuel + 1, c :: cs =>
    if listStartsWith (c :: cs) pat && !pat.isEmpty then
      rep ++ replaceAllFuel pat rep fuel (List.drop pat.length (c :: cs))
    else
      c :: replaceAllFuel pat rep fuel cs

/-- Rust `str::replace` on strings. -/
def replaceAll (s pat rep : String) : String :=
  ⟨replaceAllFuel pat.toList rep.toList s.toList.length s.toList⟩

/-- Split a character list on the slash separator. -/
def splitSlash : List Char → List (List Char)
  | [] => [[]]
  | c :: rest =>
    if c == '/' then [] :: splitSlash rest
    else
      match splitSlash rest with
      | [] => [[c]]
      | g :: gs => (c :: g) :: gs

/-- Modelled from the spec: the protocols of the multi-hop addressing grammar
recognized by the repository's address parser. -/
def knownProtocols : List String :=
  ["project", "service", "secure", "node", "worker", "ip4", "tcp", "dnsaddr"]

/-- A parsed multi-hop address: protocol-tagged segments in order. -/
abbrev MultiAddr := List (String × String)

/-- Parse the `/`-separated components into protocol/value segments. -/
def parseSegments : List String → Option MultiAddr
  | [] => some []
  | [p] => if p == "" then some [] else none
  | p :: v :: rest =>
    if knownProtocols.contains p then
      match parseSegments rest with
      | some segs => some ((p, v) :: segs)
      | none => none
    else none

/-- Modelled from the spec: `MultiAddr::from_str` — the text must start with
`/` and alternate known protocol names with their values. -/
def multiaddr_from_str (s : String) : Option MultiAddr :=
  match splitSlash s.toList with
  | [] :: rest => parseSegments (rest.map fun cs => String.mk cs)
  | _ => none

/-- Modelled from the spec: `MultiAddr` rendering, inverse of parsing. -/
def multiaddr_to_string (ma : MultiAddr) : String :=
  String.join (ma.map fun seg => "/" ++ seg.1 ++ "/" ++ seg.2)

/-- Modelled from the spec: `process_nodes_multiaddr` is out-of-scope CLI glue
(§1) substituting `/node/<name>` segments; on addresses without node segments
it returns the address unchanged, which is the only case the claims use. -/
def process_nodes_multiaddr (ma : MultiAddr) : Except String MultiAddr :=
  .ok ma

/-- The literal default of the `--to` argument (`default_to_addr`). -/
def default_to_addr : String :=
  "/project/$PROJECT_NAME/service/forward_to_$RELAY_NAME/secure/api/service/outlet"

/-- The error raised when a placeholder or bare name needs a default project
and none exists. -/
def missing_project_error : String :=
  "There is no default project defined. Please enroll or create a project."

/-- CreateCommand::parse_arg_to (lines 102-142): substitute the placeholders
when the value starts with `/project/`, then parse it as a multi-address; on
parse failure a value containing `/` is rejected, and a bare relay name is
expanded against the default project and re-parsed; the parsed address is then
run through `process_nodes_multiaddr` and rendered back to text. -/
def parse_arg_to (default_project_name : Option String) (toStr : String) :
    Except String String := do
  let toStr ←
    if listStartsWith toStr.toList "/project/".toList then
      match default_project_name with
      | none => throw missing_project_error
      | some project_name =>
        pure (replaceAll (replaceAll toStr "$PROJECT_NAME" project_name)
          "$RELAY_NAME" "default")
    else pure toStr
  let ma ←
    match multiaddr_from_str toStr with
    | some ma => pure ma
    | none =>
      if toStr.toList.contains '/' then
        throw "The relay name can\x27t contain \x27/\x27"
      else
        match default_project_name with
        | none => throw missing_project_error
        | some project_name =>
          match multiaddr_from_str ("/project/" ++ project_name ++
              "/service/forward_to_" ++ toStr ++ "/secure/api/service/outlet") with
          | some ma => pure ma
          | none => throw "Invalid address value or relay name"
  let ma ← process_nodes_multiaddr ma
  pure (multiaddr_to_string ma)

/-- Whether an `Except` computation succeeded. -/
def exceptIsOk {ε α : Type} : Except ε α → Bool
  | .ok _ => true
  | .error _ => false

/-! ## Lemmas: the expression codec round-trips -/

theorem decodeCharsFuel_encode (cs : List Char) (rest : List Nat) :
    decodeCharsFuel cs.length (cs.map Char.toNat ++ rest) = some (cs, rest) := by
  induction cs with
  | nil => rfl
  | cons c cs ih => simp [decodeCharsFuel, ih, Char.ofNat_toNat]

theorem decodeString_encode (s : String) (rest : List Nat) :
    decodeString (encodeString s ++ rest) = some (s, rest) := by
  cases s with
  | mk data => simp [encodeString, decodeString, decodeCharsFuel_encode, String.toList]

theorem decodeInt_encode (i : Int) (rest : List Nat) :
    decodeInt (encodeInt i ++ rest) = some (i, rest) := by
  cases i <;> rfl

theorem decodeExprFuel_encode (e : Expr) :
    ∀ (fuel : Nat) (rest : List Nat), exprDepth e ≤ fuel →
    decodeExprFuel fuel (encodeExpr e ++ rest) = some (e, rest) := by
  induction e with
  | ident n =>
    intro fuel rest h
    cases fuel with
    | zero => simp [exprDepth] at h
    | succ f => simp [encodeExpr, decodeExprFuel, decodeExprStep, decodeString_encode]
  | str s =>
    intro fuel rest h
    cases fuel with
    | zero => simp [exprDepth] at h
    | succ f => simp [encodeExpr, decodeExprFuel, decodeExprStep, decodeString_encode]
  | int i =>
    intro fuel rest h
    cases fuel with
    | zero => simp [exprDepth] at h
    | succ f => simp [encodeExpr, decodeExprFuel, decodeExprStep, decodeInt_encode]
  | bool b =>
    intro fuel rest h
    cases fuel with
    | zero => simp [exprDepth] at h
    | succ f => cases b <;> simp [encodeExpr, decodeExprFuel, decodeExprStep]
  | eq l r ihl ihr =>
    intro fuel rest h
    cases fuel with
    | zero => simp [exprDepth] at h
    | succ f =>
      simp only [exprDepth, Nat.add_le_add_iff_right, Nat.max_le] at h
      simp [encodeExpr, decodeExprFuel, decodeExprStep, decodeBinNode,
        List.append_assoc, ihl f _ h.1, ihr f _ h.2]
  | lt l r ihl ihr =>
    intro fuel rest h
    cases fuel with
    | zero => simp [exprDepth] at h
    | succ f =>
      simp only [exprDepth, Nat.add_le_add_iff_right, Nat.max_le] at h
      simp [encodeExpr, decodeExprFuel, decodeExprStep, decodeBinNode,
        List.append_assoc, ihl f _ h.1, ihr f _ h.2]
  | gt l r ihl ihr =>
    intro fuel rest h
    cases fuel with
    | zero => simp [exprDepth] at h
    | succ f =>
      simp only [exprDepth, Nat.add_le_add_iff_right, Nat.max_le] at h
      simp [encodeExpr, decodeExprFuel, decodeExprStep, decodeBinNode,
        List.append_assoc, ihl f _ h.1, ihr f _ h.2]
  | and l r ihl ihr =>
    intro fuel rest h
    cases fuel with
    | zero => simp [exprDepth] at h
    | succ f =>
      simp only [exprDepth, Nat.add_le_add_iff_right, Nat.max_le] at h
      simp [encodeExpr, decodeExprFuel, decodeExprStep, decodeBinNode,
        List.append_assoc, ihl f _ h.1, ihr f _ h.2]
  | or l r ihl ihr =>
    intro fuel rest h
    cases fuel with
    | zero => simp [exprDepth] at h
    | succ f =>
      simp only [exprDepth, Nat.add_le_add_iff_right, Nat.max_le] at h
      simp [encodeExpr, decodeExprFuel, decodeExprStep, decodeBinNode,
        List.append_assoc, ihl f _ h.1, ihr f _ h.2]
  | not e ih =>
    intro fuel rest h
    cases fuel with
    | zero => simp [exprDepth] at h
    | succ f =>
      simp only [exprDepth, Nat.add_le_add_iff_right] at h
      simp [encodeExpr, decodeExprFuel, decodeExprStep, ih f _ h]

theorem exprDepth_le_encode_length (e : Expr) : exprDepth e ≤ (encodeExpr e).length := by
  induction e with
  | ident n => simp [exprDepth, encodeExpr]
  | str s => simp [exprDepth, encodeExpr]
  | int i => cases i <;> simp [exprDepth, encodeExpr, encodeInt]
  | bool b => simp [exprDepth, encodeExpr]
  | eq l r ihl ihr => simp [exprDepth, encodeExpr]; omega
  | lt l r ihl ihr => simp [exprDepth, encodeExpr]; omega
  | gt l r ihl ihr => simp [exprDepth, encodeExpr]; omega
  | and l r ihl ihr => simp [exprDepth, encodeExpr]; omega
  | or l r ihl ihr => simp [exprDepth, encodeExpr]; omega
  | not e ih => simp [exprDepth, encodeExpr]; omega

theorem decodeExpr_encode (e : Expr) : decodeExpr (encodeExpr e) = some e := by
  have h := decodeExprFuel_encode e ((encodeExpr e).length + 1) []
    (Nat.le_succ_of_le (exprDepth_le_encode_length e))
  simp only [List.append_nil] at h
  simp [decodeExpr, h]

/-! ## Lemmas: list search helpers -/

theorem find?_append_of_none {α : Type} (p : α → Bool) (l₁ l₂ : List α)
    (h : ∀ x ∈ l₁, p x = false) :
    List.find? p (l₁ ++ l₂) = List.find? p l₂ := by
  induction l₁ with
  | nil => rfl
  | cons x xs ih =>
    simp only [List.cons_append, List.find?_cons, h x (List.mem_cons_self x xs)]
    exact ih fun y hy => h y (List.mem_cons_of_mem x hy)

theorem find?_filter_keep {α : Type} (p q : α → Bool) (l : List α)
    (h : ∀ x, q x = true → p x = true) :
    List.find? q (l.filter p) = List.find? q l := by
  induction l with
  | nil => rfl
  | cons x xs ih =>
    by_cases hp : p x = true
    · by_cases hq : q x = true
      · simp [List.filter_cons, hp, List.find?_cons, hq]
      · simp only [Bool.not_eq_true] at hq
        simp [List.filter_cons, hp, List.find?_cons, hq, ih]
    · have hq : q x = false := by
        cases hqx : q x with
        | false => rfl
        | true => exact absurd (h x hqx) hp
      simp only [Bool.not_eq_true] at hp
      simp [List.filter_cons, hp, List.find?_cons, hq, ih]

/-! ## Lemmas: policy repository -/

theorem rowsToPolicies_isOk_of_forall (l : List PolicyRow)
    (h : ∀ row ∈ l, (decodeExpr row.expression).isSome = true) :
    ∃ ps, rowsToPolicies l = .ok ps := by
  induction l with
  | nil => exact ⟨[], rfl⟩
  | cons row rest ih =>
    obtain ⟨e0, he0⟩ : ∃ e0, decodeExpr row.expression = some e0 := by
      have hr := h row (List.mem_cons_self row rest)
      cases hd : decodeExpr row.expression with
      | none => rw [hd] at hr; simp at hr
      | some e0 => exact ⟨e0, rfl⟩
    obtain ⟨ps, hps⟩ := ih fun y hy => h y (List.mem_cons_of_mem row hy)
    exact ⟨(row.action, e0) :: ps, by simp [rowsToPolicies, he0, hps]⟩

theorem mem_rowsToPolicies (l : List PolicyRow) :
    ∀ ps, rowsToPolicies l = .ok ps → ∀ (a : String) (e : Expr),
    ((a, e) ∈ ps ↔ ∃ row ∈ l, row.action = a ∧ decodeExpr row.expression = some e) := by
  induction l with
  | nil =>
    intro ps hps a e
    simp only [rowsToPolicies, Except.ok.injEq] at hps
    subst hps
    simp
  | cons row rest ih =>
    intro ps hps a e
    cases hd : decodeExpr row.expression with
    | none => simp [rowsToPolicies, hd] at hps
    | some e0 =>
      cases hrec : rowsToPolicies rest with
      | error err => simp [rowsToPolicies, hd, hrec] at hps
      | ok ps0 =>
        simp only [rowsToPolicies, hd, hrec, Except.ok.injEq] at hps
        subst hps
        simp only [List.mem_cons, Prod.mk.injEq, ih ps0 hrec a e]
        constructor
        · rintro (⟨rfl, rfl⟩ | ⟨row2, hmem, hact, hdec⟩)
          · exact ⟨row, Or.inl rfl, rfl, hd⟩
          · exact ⟨row2, Or.inr hmem, hact, hdec⟩
        · rintro ⟨row2, hmem | hmem, hact, hdec⟩
          · subst hmem
            rw [hd] at hdec
            exact Or.inl ⟨hact.symm, (Option.some.injEq _ _ ▸ hdec).symm⟩
          · exact Or.inr ⟨row2, hmem, hact, hdec⟩

theorem wf_db_filter (db : PolicyDb) (p : PolicyRow → Bool) (h : wf_db db) :
    wf_db (db.filter p) :=
  fun row hrow => h row (List.mem_filter.mp hrow).1

theorem wf_db_nil : wf_db [] := by
  intro row hrow
  simp at hrow

theorem wf_db_set_policy (db : PolicyDb) (r a : String) (e : Expr) (h : wf_db db) :
    wf_db (set_policy db r a e) := by
  intro row hrow
  rcases List.mem_append.mp hrow with hl | hr
  · exact wf_db_filter db _ h row hl
  · rcases List.mem_singleton.mp hr with rfl
    simp [decodeExpr_encode]

theorem wf_db_delete_policy (db : PolicyDb) (r a : String) (h : wf_db db) :
    wf_db (delete_policy db r a) :=
  wf_db_filter db _ h

theorem policy_mem_iff (db : PolicyDb) (r a : String) (e : Expr) (hwf : wf_db db) :
    policy_mem db r a e ↔
      ∃ row ∈ db, row.resource = r ∧ row.action = a ∧
        decodeExpr row.expression = some e := by
  unfold policy_mem get_policies_by_resource
  obtain ⟨ps, hps⟩ :=
    rowsToPolicies_isOk_of_forall _ (wf_db_filter db (fun row => row.resource == r) hwf)
  have hmem := mem_rowsToPolicies _ ps hps a e
  constructor
  · rintro ⟨ps2, hps2, hin⟩
    rw [hps] at hps2
    injection hps2 with hps2
    subst hps2
    obtain ⟨row, hrow, hact, hdec⟩ := hmem.mp hin
    obtain ⟨hdb, hres⟩ := List.mem_filter.mp hrow
    exact ⟨row, hdb, by simpa using hres, hact, hdec⟩
  · rintro ⟨row, hdb, hres, hact, hdec⟩
    refine ⟨ps, hps, hmem.mpr ⟨row, List.mem_filter.mpr ⟨hdb, by simpa using hres⟩, hact, hdec⟩⟩

/-- C2: for every table state, resource, action and expression, writing the
policy and reading it back returns exactly the expression that was written:
the expression round-trips losslessly through its binary encoding and the
keyed INSERT OR REPLACE / SELECT pair. -/
theorem set_then_get_policy_roundtrip (db : PolicyDb) (r a : String) (e : Expr) :
    get_policy (set_policy db r a e) r a = .ok (some e) := by
  unfold get_policy set_policy
  rw [find?_append_of_none]
  · simp [List.find?_cons, rowMatches, decodeExpr_encode]
  · intro x hx
    have hkeep := (List.mem_filter.mp hx).2
    simpa using hkeep

/-- C9: a missing row makes get_policy return successfully with no
expression, while a present row whose stored blob fails to decode makes it
return the corruption error — never `none`. -/
theorem get_policy_absent_or_corrupt (db : PolicyDb) (r a : String) :
    (db.find? (rowMatches r a) = none → get_policy db r a = .ok none) ∧
    (∀ row, db.find? (rowMatches r a) = some row →
      decodeExpr row.expression = none →
      get_policy db r a = .error .corruption) := by
  constructor
  · intro h
    simp [get_policy, h]
  · intro row h hdec
    simp [get_policy, h, hdec]

/-- Witness for C9: the empty table yields `ok none` for any key, and a table
holding an undecodable blob at the key yields the corruption error. -/
theorem get_policy_absent_or_corrupt_witness :
    get_policy [] "r1" "a1" = .ok none ∧
    get_policy [⟨"r1", "a1", [42]⟩] "r1" "a1" = .error .corruption := by
  constructor
  · exact (get_policy_absent_or_corrupt [] "r1" "a1").1 rfl
  · exact (get_policy_absent_or_corrupt [⟨"r1", "a1", [42]⟩] "r1" "a1").2
      ⟨"r1", "a1", [42]⟩ rfl rfl

/-- C8: delete_policy removes only the exactly-matching key: deleting an
absent key is a no-op, point lookups under any other action of the same
resource are unchanged, and (on well-formed states, which every API-reachable
state is) membership in get_policies_by_resource for other actions is
unchanged. -/
theorem delete_policy_frame (db : PolicyDb) (r a : String) :
    (db.find? (rowMatches r a) = none → delete_policy db r a = db) ∧
    (∀ a2, a2 ≠ a → get_policy (delete_policy db r a) r a2 = get_policy db r a2) ∧
    (wf_db db → ∀ a2 e, a2 ≠ a →
      (policy_mem (delete_policy db r a) r a2 e ↔ policy_mem db r a2 e)) := by
  refine ⟨?_, ?_, ?_⟩
  · intro h
    rw [delete_policy, List.filter_eq_self]
    intro x hx
    have hnone := List.find?_eq_none.mp h x hx
    simpa using hnone
  · intro a2 hne
    unfold get_policy delete_policy
    rw [find?_filter_keep]
    intro x hx
    simp only [rowMatches, Bool.and_eq_true, beq_iff_eq] at hx
    simp only [rowMatches, Bool.not_eq_true', Bool.and_eq_false_iff, beq_eq_false_iff_ne]
    exact Or.inr (hx.2 ▸ hne)
  · intro hwf a2 e hne
    rw [policy_mem_iff _ _ _ _ (wf_db_delete_policy db r a hwf),
      policy_mem_iff _ _ _ _ hwf]
    constructor
    · rintro ⟨row, hrow, hres, hact, hdec⟩
      exact ⟨row, (List.mem_filter.mp hrow).1, hres, hact, hdec⟩
    · rintro ⟨row, hrow, hres, hact, hdec⟩
      refine ⟨row, List.mem_filter.mpr ⟨hrow, ?_⟩, hres, hact, hdec⟩
      simp only [rowMatches, Bool.not_eq_true', Bool.and_eq_false_iff, beq_eq_false_iff_ne]
      exact Or.inr (hact ▸ hne)

/-- Witness for C8: with two policies on the same resource, deleting one
leaves the other readable and listed, and deleting an absent key is a
no-op. -/
theorem delete_policy_frame_witness :
    delete_policy [⟨"res", "create", encodeExpr (.ident "x")⟩] "res" "absent" =
      [⟨"res", "create", encodeExpr (.ident "x")⟩] ∧
    get_policy
      (delete_policy [⟨"res", "create", encodeExpr (.ident "x")⟩,
        ⟨"res", "del", encodeExpr (.bool true)⟩] "res" "del") "res" "create" =
      get_policy [⟨"res", "create", encodeExpr (.ident "x")⟩,
        ⟨"res", "del", encodeExpr (.bool true)⟩] "res" "create" ∧
    (policy_mem
      (delete_policy [⟨"res", "create", encodeExpr (.ident "x")⟩,
        ⟨"res", "del", encodeExpr (.bool true)⟩] "res" "del")
      "res" "create" (.ident "x") ↔
     policy_mem [⟨"res", "create", encodeExpr (.ident "x")⟩,
        ⟨"res", "del", encodeExpr (.bool true)⟩] "res" "create" (.ident "x")) := by
  refine ⟨?_, ?_, ?_⟩
  · exact (delete_policy_frame [⟨"res", "create", encodeExpr (.ident "x")⟩]
      "res" "absent").1 rfl
  · exact (delete_policy_frame [⟨"res", "create", encodeExpr (.ident "x")⟩,
      ⟨"res", "del", encodeExpr (.bool true)⟩] "res" "del").2.1 "create" (by decide)
  · refine (delete_policy_frame [⟨"res", "create", encodeExpr (.ident "x")⟩,
      ⟨"res", "del", encodeExpr (.bool true)⟩] "res" "del").2.2 ?_ "create" (.ident "x")
      (by decide)
    intro row hrow
    rcases List.mem_cons.mp hrow with rfl | hrow2
    · rw [decodeExpr_encode]; rfl
    · rcases List.mem_singleton.mp hrow2 with rfl
      rw [decodeExpr_encode]; rfl

/-! ## Lemmas: route resolver -/

theorem resolve_route_local_fix (t : Transport) (r : Route) (h : is_local r = true) :
    t.resolve_route r = r := by
  induction r with
  | nil => rfl
  | cons a as ih =>
    simp only [is_local, List.all_cons, Bool.and_eq_true] at h
    have iha := ih (by simpa [is_local] using h.2)
    show (a :: as).map _ = a :: as
    rw [List.map_cons]
    congr 1
    rcases a with ⟨ty, ad⟩
    have hty : ty = LOCAL := by simpa using h.1
    subst hty
    split <;> rfl

theorem resolve_ok_is_local (ts : TransportRegistry) (r r2 : Route)
    (h : resolve_transport_route ts r = .ok r2) : is_local r2 = true := by
  induction ts generalizing r with
  | nil => simp [resolve_transport_route] at h
  | cons t ts ih =>
    rw [resolve_transport_route] at h
    by_cases hl : is_local (t.resolve_route r) = true
    · rw [if_pos hl] at h
      injection h with h2
      rw [← h2]
      exact hl
    · rw [if_neg hl] at h
      exact ih _ h

theorem resolve_local_of_ne_nil (ts : TransportRegistry) (r : Route)
    (hne : ts ≠ []) (h : is_local r = true) :
    resolve_transport_route ts r = .ok r := by
  cases ts with
  | nil => exact absurd rfl hne
  | cons t ts =>
    rw [resolve_transport_route, resolve_route_local_fix t r h, if_pos h]

/-- Counterexample to C3 as stated: with an empty transport registry (a
legitimate registry state) the resolver rejects even a fully local route —
the local check sits after the per-transport pass, so the loop body never
runs and the NotFound error is returned. -/
theorem resolve_local_route_empty_registry_fails :
    is_local [⟨LOCAL, "a"⟩] = true ∧
    resolve_transport_route [] [⟨LOCAL, "a"⟩] = .error routeNotFoundError :=
  ⟨rfl, rfl⟩

/-- C3 (amended with a nonempty registry): with at least one registered
transport, a fully local route resolves successfully and unchanged, and
resolution is idempotent — re-resolving the result of any successful
resolution returns the same route. -/
theorem resolve_local_id_and_idempotent :
    (∀ (ts : TransportRegistry) (r : Route), ts ≠ [] → is_local r = true →
      resolve_transport_route ts r = .ok r) ∧
    (∀ (ts : TransportRegistry) (r r2 : Route),
      resolve_transport_route ts r = .ok r2 →
      resolve_transport_route ts r2 = .ok r2) := by
  constructor
  · exact resolve_local_of_ne_nil
  · intro ts r r2 h
    have hne : ts ≠ [] := by
      rintro rfl
      simp [resolve_transport_route] at h
    exact resolve_local_of_ne_nil ts r2 hne (resolve_ok_is_local ts r r2 h)

/-- Witness for C3 (amended): a one-transport registry maps a local route to
itself, and re-resolving the output of a successful resolution of a remote
route is a no-op. -/
theorem resolve_local_id_and_idempotent_witness :
    resolve_transport_route [⟨10⟩] [⟨LOCAL, "a"⟩] = .ok [⟨LOCAL, "a"⟩] ∧
    resolve_transport_route [⟨10⟩] [⟨LOCAL, "b"⟩] = .ok [⟨LOCAL, "b"⟩] := by
  constructor
  · exact resolve_local_id_and_idempotent.1 [⟨10⟩] [⟨LOCAL, "a"⟩] (by decide) rfl
  · exact resolve_local_id_and_idempotent.2 [⟨10⟩] [⟨10, "b"⟩] [⟨LOCAL, "b"⟩] rfl

/-- C6 (evaluating the code at failing inputs): when no transport can resolve
the remaining segments the error kind is NotFound, but its message is the
fixed text "the route () could not be fully resolved to local addresses" —
two different unresolved routes produce identical errors, so the message does
not identify the route (the source formats the unit value `{}` instead of the
route). -/
theorem resolve_unresolved_route_error_message :
    resolve_transport_route [⟨10⟩] [⟨1, "remote-host"⟩] = .error routeNotFoundError ∧
    resolve_transport_route [⟨10⟩] [⟨2, "another-host"⟩] = .error routeNotFoundError ∧
    routeNotFoundError.kind = ErrKind.notFound ∧
    routeNotFoundError.message =
      "the route () could not be fully resolved to local addresses" :=
  ⟨rfl, rfl, rfl, rfl⟩

/-- C7: the resolver consults the transports in registration order — the head
transport first, then the rest on its output; each pass only turns segments
into local ones (every address is either unchanged or replaced by a local
address in place); and as soon as a pass leaves the route fully local the
resolver returns it, with the remaining transports never affecting the
result. -/
theorem resolve_transport_route_order_spec :
    (∀ (t : Transport) (ts : TransportRegistry) (r : Route),
      resolve_transport_route (t :: ts) r =
        if is_local (t.resolve_route r) then .ok (t.resolve_route r)
        else resolve_transport_route ts (t.resolve_route r)) ∧
    (∀ (t : Transport) (r : Route),
      List.Forall₂ (fun a b => b = a ∨ b.transportType = LOCAL) r
        (t.resolve_route r)) ∧
    (∀ (t : Transport) (ts1 ts2 : TransportRegistry) (r : Route),
      is_local (t.resolve_route r) = true →
      resolve_transport_route (t :: ts1) r = .ok (t.resolve_route r) ∧
      resolve_transport_route (t :: ts1) r = resolve_transport_route (t :: ts2) r) := by
  refine ⟨fun t ts r => rfl, ?_, ?_⟩
  · intro t r
    induction r with
    | nil => exact List.Forall₂.nil
    | cons a as ih =>
      show List.Forall₂ _ (a :: as) (List.map _ (a :: as))
      rw [List.map_cons]
      refine List.Forall₂.cons ?_ ih
      by_cases hc : (a.transportType == t.transport_type) = true
      · right
        simp [hc, LOCAL]
      · left
        simp [hc]
  · intro t ts1 ts2 r h
    have h1 : resolve_transport_route (t :: ts1) r = .ok (t.resolve_route r) := by
      rw [resolve_transport_route, if_pos h]
    have h2 : resolve_transport_route (t :: ts2) r = .ok (t.resolve_route r) := by
      rw [resolve_transport_route, if_pos h]
    exact ⟨h1, h1.trans h2.symm⟩

/-- Witness for C7: on a concrete two-transport registry the unfolding
equation, the per-pass monotonicity and the early return all hold. -/
theorem resolve_transport_route_order_spec_witness :
    resolve_transport_route [⟨10⟩, ⟨11⟩] [⟨10, "a"⟩] =
      (if is_local (Transport.resolve_route ⟨10⟩ [⟨10, "a"⟩])
        then .ok (Transport.resolve_route ⟨10⟩ [⟨10, "a"⟩])
        else resolve_transport_route [⟨11⟩] (Transport.resolve_route ⟨10⟩ [⟨10, "a"⟩])) ∧
    List.Forall₂ (fun a b => b = a ∨ b.transportType = LOCAL) [⟨10, "a"⟩]
      (Transport.resolve_route ⟨10⟩ [⟨10, "a"⟩]) ∧
    resolve_transport_route [⟨10⟩, ⟨11⟩] [⟨10, "a"⟩] =
      .ok (Transport.resolve_route ⟨10⟩ [⟨10, "a"⟩]) ∧
    resolve_transport_route [⟨10⟩, ⟨11⟩] [⟨10, "a"⟩] =
      resolve_transport_route [⟨10⟩, ⟨12⟩] [⟨10, "a"⟩] := by
  have h3 := resolve_transport_route_order_spec.2.2 ⟨10⟩ [⟨11⟩] [⟨12⟩] [⟨10, "a"⟩] rfl
  exact ⟨resolve_transport_route_order_spec.1 ⟨10⟩ [⟨11⟩] [⟨10, "a"⟩],
    resolve_transport_route_order_spec.2.1 ⟨10⟩ [⟨10, "a"⟩], h3.1, h3.2⟩

/-! ## Theorems: inlet creation retry loop -/

/-- C1: a BadRequest reply ends the loop at once with the fatal api error —
one attempt, no sleep — whatever `retry_wait` is; any other failed reply ends
the loop fatally after the single attempt when `retry_wait` is zero, and
otherwise adds one sleep of `retry_wait` followed by a fresh attempt on the
remaining replies. -/
theorem inlet_retry_loop_spec :
    (∀ (w : Nat) (e : Option String) (rest : List (Reply InletStatus)),
      inlet_retry_loop w (.failed e (some statusBadRequest) :: rest) =
        ⟨1, [], .error (.apiInvalid (e.getD "bad request when creating an inlet"))⟩) ∧
    (∀ (e : Option String) (s : Option Nat) (rest : List (Reply InletStatus)),
      s ≠ some statusBadRequest →
      inlet_retry_loop 0 (.failed e s :: rest) = ⟨1, [], .error .failedToCreate⟩) ∧
    (∀ (w : Nat) (e : Option String) (s : Option Nat)
      (rest : List (Reply InletStatus)),
      s ≠ some statusBadRequest → w ≠ 0 →
      inlet_retry_loop w (.failed e s :: rest) =
        ⟨(inlet_retry_loop w rest).attempts + 1,
          w :: (inlet_retry_loop w rest).sleeps,
          (inlet_retry_loop w rest).result⟩) := by
  refine ⟨?_, ?_, ?_⟩
  · intro w e rest
    simp [inlet_retry_loop]
  · intro e s rest h
    have hb : (s == some statusBadRequest) = false := by
      rw [beq_eq_false_iff_ne]
      exact h
    simp [inlet_retry_loop, hb]
  · intro w e s rest h hw
    have hb : (s == some statusBadRequest) = false := by
      rw [beq_eq_false_iff_ne]
      exact h
    have hw2 : (w == 0) = false := by
      rw [beq_eq_false_iff_ne]
      exact hw
    simp [inlet_retry_loop, hb, hw2]

/-- Witness for C1: concrete reply streams — a first-attempt BadRequest is
fatal despite `retry_wait = 20`, a 500-status first attempt is fatal with
`retry_wait = 0`, and with `retry_wait = 20` it sleeps once and succeeds on
the second attempt. -/
theorem inlet_retry_loop_spec_witness :
    inlet_retry_loop 20
      [.failed (some "denied") (some statusBadRequest), .successful ⟨"b"⟩] =
      ⟨1, [], .error (.apiInvalid "denied")⟩ ∧
    inlet_retry_loop 0 [.failed none (some 500), .successful ⟨"b"⟩] =
      ⟨1, [], .error .failedToCreate⟩ ∧
    inlet_retry_loop 20 [.failed none (some 500), .successful ⟨"b"⟩] =
      ⟨2, [20], .ok ⟨"b"⟩⟩ := by
  refine ⟨?_, ?_, ?_⟩
  · exact inlet_retry_loop_spec.1 20 (some "denied") [.successful ⟨"b"⟩]
  · exact inlet_retry_loop_spec.2.1 none (some 500) [.successful ⟨"b"⟩] (by decide)
  · rw [inlet_retry_loop_spec.2.2 20 none (some 500) [.successful ⟨"b"⟩]
      (by decide) (by decide)]
    rfl

/-! ## Theorems: credential presentation -/

/-- C5: when the credential lookup for the node's own identifier comes back
empty, present_credential aborts the process (panic) instead of returning a
failure to the caller; with a credential in hand it presents one-way when
`oneway` is set, and otherwise runs the mutual exchange against the
trust-context authorities. -/
theorem present_credential_spec :
    (∀ (route : Route) (idn : String) (tc : Except String (List String))
      (ow : Bool),
      present_credential (.ok route) idn (.ok none) tc ow =
        .panicked ("A credential must be retrieved for " ++ idn) ∧
      ∀ msg, present_credential (.ok route) idn (.ok none) tc ow ≠ .failed msg) ∧
    (∀ (route : Route) (idn : String) (tc : Except String (List String))
      (c : Credential),
      present_credential (.ok route) idn (.ok (some c)) tc true =
        .presentedOneway route c) ∧
    (∀ (route : Route) (idn : String) (auths : List String) (c : Credential),
      present_credential (.ok route) idn (.ok (some c)) (.ok auths) false =
        .presentedMutual route auths c) := by
  refine ⟨?_, fun _ _ _ _ => rfl, fun _ _ _ _ => rfl⟩
  intro route idn tc ow
  refine ⟨rfl, fun msg => ?_⟩
  simp [present_credential]

/-- Witness for C5: the three dispatch outcomes at concrete inputs. -/
theorem present_credential_spec_witness :
    present_credential (.ok [⟨LOCAL, "peer"⟩]) "I1" (.ok none) (.ok []) true =
      .panicked "A credential must be retrieved for I1" ∧
    present_credential (.ok [⟨LOCAL, "peer"⟩]) "I1" (.ok (some ⟨"c"⟩)) (.ok []) true =
      .presentedOneway [⟨LOCAL, "peer"⟩] ⟨"c"⟩ ∧
    present_credential (.ok [⟨LOCAL, "peer"⟩]) "I1" (.ok (some ⟨"c"⟩))
      (.ok ["auth1"]) false =
      .presentedMutual [⟨LOCAL, "peer"⟩] ["auth1"] ⟨"c"⟩ :=
  ⟨(present_credential_spec.1 [⟨LOCAL, "peer"⟩] "I1" (.ok []) true).1,
    present_credential_spec.2.1 [⟨LOCAL, "peer"⟩] "I1" (.ok []) ⟨"c"⟩,
    present_credential_spec.2.2 [⟨LOCAL, "peer"⟩] "I1" ["auth1"] ⟨"c"⟩⟩

/-! ## Theorems: users repository -/

/-- C10: set_default_user rewrites only the rows whose email matches — every
position holds either the marked row (matching email) or the original row;
marking a second distinct user does not clear the first user's default flag,
so both end up marked; and a row already marked default keeps a marked row
with its email present after any further set_default_user. -/
theorem set_default_user_frame_spec :
    (∀ (db : UserDb) (em : String) (i : Nat),
      (set_default_user db em)[i]? = (db[i]?).map fun u =>
        if u.email == em then { u with is_default := true } else u) ∧
    (∀ (db : UserDb) (e1 e2 : String) (u v : UserRow),
      u ∈ db → v ∈ db → u.email = e1 → v.email = e2 → e1 ≠ e2 →
      { u with is_default := true } ∈
        set_default_user (set_default_user db e1) e2 ∧
      { v with is_default := true } ∈
        set_default_user (set_default_user db e1) e2) ∧
    (∀ (db : UserDb) (em : String) (u : UserRow),
      u ∈ db → u.is_default = true →
      ∃ u2 ∈ set_default_user db em, u2.email = u.email ∧ u2.is_default = true) := by
  refine ⟨?_, ?_, ?_⟩
  · intro db em i
    simp [set_default_user]
  · intro db e1 e2 u v hu hv hue hve hne
    constructor
    · have h1 : { u with is_default := true } ∈ set_default_user db e1 := by
        have hm := List.mem_map_of_mem
          (fun x => if x.email == e1 then { x with is_default := true } else x) hu
        simpa [set_default_user, hue] using hm
      have hm2 := List.mem_map_of_mem
        (fun x => if x.email == e2 then { x with is_default := true } else x) h1
      simpa [set_default_user, hue, hne] using hm2
    · have h1 : v ∈ set_default_user db e1 := by
        have hm := List.mem_map_of_mem
          (fun x => if x.email == e1 then { x with is_default := true } else x) hv
        have hne2 : v.email ≠ e1 := by
          rw [hve]
          exact fun hc => hne hc.symm
        simpa [set_default_user, hne2] using hm
      have hm2 := List.mem_map_of_mem
        (fun x => if x.email == e2 then { x with is_default := true } else x) h1
      simpa [set_default_user, hve] using hm2
  · intro db em u hu hdef
    refine ⟨if u.email == em then { u with is_default := true } else u,
      List.mem_map_of_mem _ hu, ?_⟩
    by_cases hc : (u.email == em) = true <;> simp [hc, hdef]

/-- Witness for C10: two stored users; after marking "me" and then "you" as
default, both marked rows are present (the first default mark is not
cleared). -/
theorem set_default_user_frame_spec_witness :
    (set_default_user [⟨"me", "s", "n1", "m1", "p1", "t1", false, false⟩,
        ⟨"you", "s", "n2", "m2", "p2", "t2", false, false⟩] "other")[0]? =
      some ⟨"me", "s", "n1", "m1", "p1", "t1", false, false⟩ ∧
    (⟨"me", "s", "n1", "m1", "p1", "t1", false, true⟩ : UserRow) ∈
      set_default_user (set_default_user
        [⟨"me", "s", "n1", "m1", "p1", "t1", false, false⟩,
         ⟨"you", "s", "n2", "m2", "p2", "t2", false, false⟩] "me") "you" ∧
    (⟨"you", "s", "n2", "m2", "p2", "t2", false, true⟩ : UserRow) ∈
      set_default_user (set_default_user
        [⟨"me", "s", "n1", "m1", "p1", "t1", false, false⟩,
         ⟨"you", "s", "n2", "m2", "p2", "t2", false, false⟩] "me") "you" := by
  have h2 := set_default_user_frame_spec.2.1
    [⟨"me", "s", "n1", "m1", "p1", "t1", false, false⟩,
     ⟨"you", "s", "n2", "m2", "p2", "t2", false, false⟩] "me" "you"
    ⟨"me", "s", "n1", "m1", "p1", "t1", false, false⟩
    ⟨"you", "s", "n2", "m2", "p2", "t2", false, false⟩
    (by decide) (by decide) rfl rfl (by decide)
  refine ⟨?_, h2.1, h2.2⟩
  rw [set_default_user_frame_spec.1
    [⟨"me", "s", "n1", "m1", "p1", "t1", false, false⟩,
     ⟨"you", "s", "n2", "m2", "p2", "t2", false, false⟩] "other" 0]
  rfl

/-! ## Theorems: target-address parsing -/

/-- C4: with default project "p1", the placeholder template resolves to the
default-relay outlet address, the bare relay name "alice" expands against the
default project, an address with a leading slash and an unknown protocol is
rejected, and a bare relay name containing a slash is rejected. -/
theorem parse_arg_to_examples :
    parse_arg_to (some "p1") default_to_addr =
      .ok "/project/p1/service/forward_to_default/secure/api/service/outlet" ∧
    parse_arg_to (some "p1") "alice" =
      .ok "/project/p1/service/forward_to_alice/secure/api/service/outlet" ∧
    exceptIsOk (parse_arg_to (some "p1") "/alice/service") = false ∧
    exceptIsOk (parse_arg_to (some "p1") "alice/forwarder") = false :=
  ⟨rfl, rfl, rfl, rfl⟩

end Ockam
